import Mathlib

/-!
Shallow embedding of the baby-web-app repository (a family baby-tracking web
application).  The embedding covers:

* `src/lib/records.ts` — the record CRUD module (`addRecord`, `updateRecord`,
  `deleteRecord`, `getSnapshots`, `getMeasurementRecords`) over the Firestore
  query builder;
* the `AddRecordModal` component (`handleSubmit`, `handleImageChange`);
* `src/components/FloatingActionButton.tsx`.

The managed document database (Firestore) is modelled by a list of stored
documents together with an evaluator for query constraints (`where`,
`orderBy`, `limit`, `startAfter`): filters select matching documents, `orderBy`
sorts, `startAfter` drops through the named document and `limit` truncates.
Asynchronous SDK calls that can fail at the backend take an explicit success
flag; functions that throw return `Except.error` with the thrown message.
-/

/-- A civil date, as read off a JS `Date` (`getFullYear` / `getMonth`).
`month0` is the 0-11 month index that `getMonth()` returns. -/
structure Date where
  year : Int
  month0 : Nat
  day : Nat
deriving DecidableEq, Repr

def Date.getFullYear (d : Date) : Int := d.year

def Date.getMonth (d : Date) : Nat := d.month0

/-- A Firestore `Timestamp`.  We model the instant by the civil datetime that
`toDate()` yields (year / 0-based month / day plus the time of day in
milliseconds); instants compare lexicographically on those components. -/
structure Timestamp where
  year : Int
  month0 : Nat
  day : Nat
  msOfDay : Nat
deriving DecidableEq, Repr

def Timestamp.toDate (t : Timestamp) : Date := ⟨t.year, t.month0, t.day⟩

def Timestamp.fromDate (d : Date) : Timestamp := ⟨d.year, d.month0, d.day, 0⟩

def Timestamp.le (a b : Timestamp) : Bool :=
  a.year < b.year ∨ (a.year = b.year ∧
    (a.month0 < b.month0 ∨ (a.month0 = b.month0 ∧
      (a.day < b.day ∨ (a.day = b.day ∧ a.msOfDay ≤ b.msOfDay)))))

/-- The value stored in a document's `timestamp` field: either a concrete
`Timestamp` or the `serverTimestamp()` sentinel (`FieldValue`), which is not a
`Timestamp` instance. -/
inductive TimestampValue where
  | ts (t : Timestamp)
  | serverTimestamp
deriving DecidableEq, Repr

/-- Ordering used when a query orders by the `timestamp` field; the sentinel
(resolved server-side at write time) is placed first. -/
def TimestampValue.le : TimestampValue → TimestampValue → Bool
  | .serverTimestamp, _ => true
  | .ts _, .serverTimestamp => false
  | .ts a, .ts b => Timestamp.le a b

/-- `RecordData['type']` from records.ts. -/
inductive RecordType where
  | feeding | diaper | sleep | solidFood | measurement | bmi | snapshot
deriving DecidableEq, Repr

/-- The string each record type is stored as in Firestore. -/
def RecordType.toStr : RecordType → String
  | .feeding => "feeding"
  | .diaper => "diaper"
  | .sleep => "sleep"
  | .solidFood => "solid-food"
  | .measurement => "measurement"
  | .bmi => "bmi"
  | .snapshot => "snapshot"

/-- `CreatableRecordType` from records.ts (`RecordType` minus `bmi`). -/
inductive CreatableRecordType where
  | feeding | diaper | sleep | solidFood | measurement | snapshot
deriving DecidableEq, Repr

def CreatableRecordType.toRecordType : CreatableRecordType → RecordType
  | .feeding => .feeding
  | .diaper => .diaper
  | .sleep => .sleep
  | .solidFood => .solidFood
  | .measurement => .measurement
  | .snapshot => .snapshot

inductive FeedingMethod where
  | bottle | breastfeeding
deriving DecidableEq, Repr

inductive DiaperKind where
  | wet | dirty
deriving DecidableEq, Repr

inductive Reaction where
  | good | neutral | bad
deriving DecidableEq, Repr

inductive MeasurementType where
  | height | weight | headCircumference
deriving DecidableEq, Repr

/-- `Partial<RecordData>` from records.ts: every field may be absent.
`creatorName` is `string | null` when present, hence `Option (Option String)`. -/
structure RecordData where
  familyId : Option String := none
  babyId : Option String := none
  creatorId : Option String := none
  creatorName : Option (Option String) := none
  type : Option RecordType := none
  timestamp : Option Timestamp := none
  notes : Option String := none
  amount : Option Int := none
  method : Option FeedingMethod := none
  diaperType : Option (List DiaperKind) := none
  startTime : Option Timestamp := none
  endTime : Option Timestamp := none
  foodItems : Option String := none
  reaction : Option Reaction := none
  measurementType : Option MeasurementType := none
  value : Option Int := none
  imageUrl : Option String := none
  tags : Option (List String) := none
  year : Option Int := none
  month : Option Int := none
deriving DecidableEq, Repr

/-- The document `addRecord` writes (the shape of `dataToSave`): the spread of
the incoming `Partial<RecordData>` with `babyId`, `creatorName` and
`timestamp` overwritten. -/
structure SavedRecord where
  familyId : String
  babyId : String
  creatorId : String
  creatorName : Option String
  type : Option RecordType
  timestamp : TimestampValue
  notes : Option String
  amount : Option Int
  method : Option FeedingMethod
  diaperType : Option (List DiaperKind)
  startTime : Option Timestamp
  endTime : Option Timestamp
  foodItems : Option String
  reaction : Option Reaction
  measurementType : Option MeasurementType
  value : Option Int
  imageUrl : Option String
  tags : Option (List String)
  year : Option Int
  month : Option Int
deriving DecidableEq, Repr

/-- A document at rest in the `records` collection, with its id. -/
structure StoredDoc where
  id : String
  data : SavedRecord
deriving DecidableEq, Repr

/-- `UserProfile` from the auth context (the fields this codebase reads):
`displayName : string | null` and the household membership list. -/
structure UserProfile where
  displayName : Option String
  familyIDs : List String
deriving DecidableEq, Repr

/-- The identity provider's user object; only `uid` is read. -/
structure User where
  uid : String
deriving DecidableEq, Repr

/-- JS truthiness of an optional string: present and nonempty. -/
def truthyStr : Option String → Bool
  | none => false
  | some s => s ≠ ""

/-- JS truthiness of an optional number: present and nonzero. -/
def truthyNum : Option Int → Bool
  | none => false
  | some n => n ≠ 0

/-- The `dataToSave` object built inside `addRecord` (records.ts lines 76-88):
spread of `recordData`, `babyId` forced to `'baby_01'`, `creatorName` forced to
`userProfile.displayName`, `timestamp` defaulted to `serverTimestamp()`, and —
only for `snapshot` records whose effective timestamp is a `Timestamp`
instance — `year` / `month` extracted from `timestamp.toDate()`. -/
def dataToSave (recordData : RecordData) (userProfile : UserProfile) : SavedRecord :=
  let ts : TimestampValue :=
    match recordData.timestamp with
    | some t => .ts t
    | none => .serverTimestamp
  let base : SavedRecord :=
    { familyId := recordData.familyId.getD ""
      babyId := "baby_01"
      creatorId := recordData.creatorId.getD ""
      creatorName := userProfile.displayName
      type := recordData.type
      timestamp := ts
      notes := recordData.notes
      amount := recordData.amount
      method := recordData.method
      diaperType := recordData.diaperType
      startTime := recordData.startTime
      endTime := recordData.endTime
      foodItems := recordData.foodItems
      reaction := recordData.reaction
      measurementType := recordData.measurementType
      value := recordData.value
      imageUrl := recordData.imageUrl
      tags := recordData.tags
      year := recordData.year
      month := recordData.month }
  if recordData.type = some .snapshot then
    match ts with
    | .ts t =>
        { base with
          year := some t.toDate.getFullYear
          month := some ((t.toDate.getMonth : Int) + 1) }
    | .serverTimestamp => base
  else base

/-- `addRecord` (records.ts lines 66-97).  `newId` is the id Firestore mints
for the new document; `addDocOk` says whether the backend `addDoc` call
succeeds.  Returns the database after the call together with the function's
outcome (`.ok` carries the new document id, `.error` the thrown message). -/
def addRecord (recordData : RecordData) (userProfile : Option UserProfile)
    (db : List StoredDoc) (newId : String) (addDocOk : Bool) :
    List StoredDoc × Except String String :=
  if !truthyStr recordData.familyId || !truthyStr recordData.creatorId then
    (db, .error "Family ID and Creator ID are required.")
  else
    match userProfile with
    | none => (db, .error "User profile is not available.")
    | some profile =>
      if addDocOk then
        (db ++ [⟨newId, dataToSave recordData profile⟩], .ok newId)
      else
        (db, .error "Failed to add record.")

/-- Merging one `updateDoc` field set into a stored document: every field
present in `updatedData` overwrites the stored value. -/
def applyUpdate (r : SavedRecord) (u : RecordData) : SavedRecord :=
  { familyId := u.familyId.getD r.familyId
    babyId := u.babyId.getD r.babyId
    creatorId := u.creatorId.getD r.creatorId
    creatorName := match u.creatorName with | some v => v | none => r.creatorName
    type := match u.type with | some v => some v | none => r.type
    timestamp := match u.timestamp with | some t => .ts t | none => r.timestamp
    notes := match u.notes with | some v => some v | none => r.notes
    amount := match u.amount with | some v => some v | none => r.amount
    method := match u.method with | some v => some v | none => r.method
    diaperType := match u.diaperType with | some v => some v | none => r.diaperType
    startTime := match u.startTime with | some v => some v | none => r.startTime
    endTime := match u.endTime with | some v => some v | none => r.endTime
    foodItems := match u.foodItems with | some v => some v | none => r.foodItems
    reaction := match u.reaction with | some v => some v | none => r.reaction
    measurementType := match u.measurementType with | some v => some v | none => r.measurementType
    value := match u.value with | some v => some v | none => r.value
    imageUrl := match u.imageUrl with | some v => some v | none => r.imageUrl
    tags := match u.tags with | some v => some v | none => r.tags
    year := match u.year with | some v => some v | none => r.year
    month := match u.month with | some v => some v | none => r.month }

/-- `updateRecord` (records.ts lines 158-170).  `updateDoc` fails (is caught
and rethrown as `'Failed to update record.'`) when the backend call fails or
the document does not exist. -/
def updateRecord (recordId : String) (updatedData : RecordData)
    (db : List StoredDoc) (backendOk : Bool) :
    List StoredDoc × Except String Unit :=
  if recordId = "" then
    (db, .error "Record ID is required for updating.")
  else if backendOk && db.any (fun d => d.id == recordId) then
    (db.map (fun d => if d.id = recordId then ⟨d.id, applyUpdate d.data updatedData⟩ else d),
     .ok ())
  else
    (db, .error "Failed to update record.")

/-- `deleteRecord` (records.ts lines 172-184). -/
def deleteRecord (recordId : String) (db : List StoredDoc) (backendOk : Bool) :
    List StoredDoc × Except String Unit :=
  if recordId = "" then
    (db, .error "Record ID is required for deletion.")
  else if backendOk then
    (db.filter (fun d => d.id ≠ recordId), .ok ())
  else
    (db, .error "Failed to delete record.")

/-- A typed Firestore field value, for `where` comparisons and ordering. -/
inductive FieldValue where
  | str (s : String)
  | int (n : Int)
  | strList (l : List String)
  | tsv (t : TimestampValue)
deriving DecidableEq, Repr

/-- Looking a queried field up in a stored document.  Absent optional fields
yield `none` (a Firestore `where` clause never matches a document missing the
field).  Only the fields this codebase queries or orders by are listed. -/
def SavedRecord.field (r : SavedRecord) (name : String) : Option FieldValue :=
  if name = "familyId" then some (.str r.familyId)
  else if name = "babyId" then some (.str r.babyId)
  else if name = "creatorId" then some (.str r.creatorId)
  else if name = "type" then r.type.map (fun t => .str t.toStr)
  else if name = "timestamp" then some (.tsv r.timestamp)
  else if name = "year" then r.year.map .int
  else if name = "month" then r.month.map .int
  else if name = "tags" then r.tags.map .strList
  else none

inductive SortDirection where
  | asc | desc
deriving DecidableEq, Repr

/-- The query clauses this codebase composes: `where(f, '==', v)`,
`where(f, 'array-contains', v)`, `orderBy(f, dir)`, `limit(n)` and
`startAfter(lastDoc)` (a document snapshot, identified here by its id). -/
inductive QueryConstraint where
  | whereEq (field : String) (value : FieldValue)
  | whereArrayContains (field : String) (value : FieldValue)
  | orderByField (field : String) (dir : SortDirection)
  | limitTo (n : Nat)
  | startAfterDoc (docId : String)
deriving DecidableEq, Repr

/-- Whether a document satisfies one constraint's filter (non-`where`
constraints do not filter). -/
def constraintMatches (r : SavedRecord) : QueryConstraint → Bool
  | .whereEq f v => r.field f = some v
  | .whereArrayContains f v =>
    match r.field f, v with
    | some (.strList l), .str s => l.contains s
    | _, _ => false
  | _ => true

/-- Comparison of field values of the same Firestore type; across types,
Firestore orders by a fixed type order, modelled by constructor index
(`str < int < strList < tsv`). -/
def FieldValue.le : FieldValue → FieldValue → Bool
  | .str a, .str b => a ≤ b
  | .str _, .int _ => true
  | .str _, .strList _ => true
  | .str _, .tsv _ => true
  | .int _, .str _ => false
  | .int a, .int b => a ≤ b
  | .int _, .strList _ => true
  | .int _, .tsv _ => true
  | .strList _, .str _ => false
  | .strList _, .int _ => false
  | .strList a, .strList b => a.length ≤ b.length
  | .strList _, .tsv _ => true
  | .tsv _, .str _ => false
  | .tsv _, .int _ => false
  | .tsv _, .strList _ => false
  | .tsv a, .tsv b => TimestampValue.le a b

/-- Ordering on optional field values: documents missing the ordered field
sort first. -/
def optFieldLe : Option FieldValue → Option FieldValue → Bool
  | none, _ => true
  | some _, none => false
  | some a, some b => FieldValue.le a b

/-- Document order induced by `orderBy(field, dir)`. -/
def docLe (field : String) (dir : SortDirection) (a b : StoredDoc) : Bool :=
  match dir with
  | .asc => optFieldLe (a.data.field field) (b.data.field field)
  | .desc => optFieldLe (b.data.field field) (a.data.field field)

def findOrderBy : List QueryConstraint → Option (String × SortDirection)
  | [] => none
  | .orderByField f d :: _ => some (f, d)
  | _ :: cs => findOrderBy cs

def findLimit : List QueryConstraint → Option Nat
  | [] => none
  | .limitTo n :: _ => some n
  | _ :: cs => findLimit cs

def findStartAfter : List QueryConstraint → Option String
  | [] => none
  | .startAfterDoc i :: _ => some i
  | _ :: cs => findStartAfter cs

/-- `getDocs` on a composed query: keep the documents matching every `where`
clause, order them by the `orderBy` clause, resume after the `startAfter`
document, and truncate to the `limit`. -/
def evalQuery (db : List StoredDoc) (cs : List QueryConstraint) : List StoredDoc :=
  let filtered := db.filter (fun d => cs.all (constraintMatches d.data))
  let ordered :=
    match findOrderBy cs with
    | some (f, dir) => filtered.insertionSort (fun a b => docLe f dir a b = true)
    | none => filtered
  let positioned :=
    match findStartAfter cs with
    | some lastId => (ordered.dropWhile (fun d => d.id ≠ lastId)).drop 1
    | none => ordered
  match findLimit cs with
  | some n => positioned.take n
  | none => positioned

/-- JS `\s` (the whitespace class used both by the tag-splitting regex and by
`String.prototype.trim`). -/
def isJsWhitespace (c : Char) : Bool :=
  let n := c.toNat
  n == 0x20 || n == 0x09 || n == 0x0A || n == 0x0B || n == 0x0C || n == 0x0D ||
  n == 0xA0 || n == 0x1680 || (0x2000 ≤ n && n ≤ 0x200A) ||
  n == 0x2028 || n == 0x2029 || n == 0x202F || n == 0x205F || n == 0x3000 ||
  n == 0xFEFF

/-- `String.prototype.trim`: strip leading and trailing JS whitespace. -/
def jsTrim (s : String) : String :=
  String.mk (((s.data.dropWhile isJsWhitespace).reverse.dropWhile isJsWhitespace).reverse)

/-- The options object of `getSnapshots`.  `lastDoc` is a document snapshot,
identified by its id. -/
structure SnapshotFilter where
  year : Option Int := none
  month : Option Int := none
  tag : Option String := none
deriving DecidableEq, Repr

structure GetSnapshotsOptions where
  perPage : Option Nat := none
  lastDoc : Option String := none
  filter : Option SnapshotFilter := none
deriving DecidableEq, Repr

/-- The constraint list `getSnapshots` composes (records.ts lines 115-145):
the base `familyId` / `type` filters, the optional `year` / `month` / `tag`
filters guarded by JS truthiness, then `orderBy('timestamp', 'desc')`,
`limit(perPage)` and the optional `startAfter(lastDoc)`. -/
def getSnapshotsConstraints (familyId : String) (options : GetSnapshotsOptions) :
    List QueryConstraint :=
  let perPage : Nat := match options.perPage with
    | none => 20
    | some n => if n ≠ 0 then n else 20
  let base : List QueryConstraint :=
    [.whereEq "familyId" (.str familyId), .whereEq "type" (.str "snapshot")]
  let base :=
    match options.filter with
    | none => base
    | some flt =>
      let base :=
        match flt.year with
        | some y => if y ≠ 0 then base ++ [.whereEq "year" (.int y)] else base
        | none => base
      let base :=
        match flt.month with
        | some m => if m ≠ 0 then base ++ [.whereEq "month" (.int m)] else base
        | none => base
      match flt.tag with
      | some t =>
        if t ≠ "" ∧ jsTrim t ≠ "" then
          base ++ [.whereArrayContains "tags" (.str (jsTrim t))]
        else base
      | none => base
  let base := base ++ [.orderByField "timestamp" .desc, .limitTo perPage]
  match options.lastDoc with
  | some ld => base ++ [.startAfterDoc ld]
  | none => base

/-- `getSnapshots` (records.ts lines 103-154): run the composed query, pair
each fetched document with its id, and also return the last fetched document
as `lastVisible`. -/
def getSnapshots (familyId : String) (options : GetSnapshotsOptions)
    (db : List StoredDoc) : List (String × SavedRecord) × Option StoredDoc :=
  let docs := evalQuery db (getSnapshotsConstraints familyId options)
  (docs.map (fun d => (d.id, d.data)), docs.getLast?)

/-- The constraint list `getMeasurementRecords` composes
(records.ts lines 188-194). -/
def getMeasurementRecordsConstraints (familyId babyId : String) :
    List QueryConstraint :=
  [.whereEq "familyId" (.str familyId),
   .whereEq "babyId" (.str babyId),
   .whereEq "type" (.str "measurement"),
   .orderByField "timestamp" .asc]

/-- `getMeasurementRecords` (records.ts lines 186-198). -/
def getMeasurementRecords (familyId babyId : String) (db : List StoredDoc) :
    List (String × SavedRecord) :=
  (evalQuery db (getMeasurementRecordsConstraints familyId babyId)).map
    (fun d => (d.id, d.data))

/-- Separator class of the tag-splitting regex `/[,，\s]+/`: ASCII comma,
fullwidth comma (U+FF0C) and JS whitespace. -/
def isTagSep (c : Char) : Bool :=
  c == ',' || c == '，' || isJsWhitespace c

/-- JS `String.prototype.split` with the regex `/[,，\s]+/`: the pattern
greedily consumes a maximal run of separators at each match, so the string is
cut at every maximal separator run (yielding an empty leading token when the
string starts with a separator, and an empty trailing token when it ends with
one). -/
def jsSplit : List Char → List (List Char)
  | [] => [[]]
  | c :: cs =>
    if isTagSep c then
      [] :: jsSplit (cs.dropWhile isTagSep)
    else
      match jsSplit cs with
      | t :: ts => (c :: t) :: ts
      | [] => [[c]]
termination_by l => l.length
decreasing_by
  · exact Nat.lt_succ_of_le ((List.dropWhile_sublist _).length_le)
  · simp

/-- The tag parsing done by `AddRecordModal.handleSubmit`:
`tags.split(/[,，\s]+/).filter(tag => tag.length > 0)`. -/
def parseTags (s : String) : List String :=
  ((jsSplit s.data).filter (fun t => decide (t.length > 0))).map (fun t => String.mk t)

/-- Claim-side description of the tag parsing: the maximal runs of
non-separator characters, in order. -/
def nonSepRuns : List Char → List (List Char)
  | [] => []
  | c :: cs =>
    if isTagSep c then nonSepRuns cs
    else (c :: cs.takeWhile (fun x => !isTagSep x)) ::
      nonSepRuns (cs.dropWhile (fun x => !isTagSep x))
termination_by l => l.length
decreasing_by
  · simp
  · exact Nat.lt_succ_of_le ((List.dropWhile_sublist _).length_le)

def specTagTokens (s : String) : List String :=
  (nonSepRuns s.data).map (fun t => String.mk t)

/-- A browser `File`/`Blob`: MIME type, size in MB and pixel dimensions. -/
structure ImageBlob where
  type : String
  sizeMB : ℚ
  width : Nat
  height : Nat
deriving DecidableEq, Repr

/-- The `browser-image-compression` options object. -/
structure CompressionOptions where
  maxSizeMB : ℚ
  maxWidthOrHeight : Nat
  useWebWorker : Bool
  fileType : String
deriving DecidableEq, Repr

/-- The options `AddRecordModal.handleImageChange` passes to
`imageCompression`. -/
def modalCompressionOptions : CompressionOptions :=
  { maxSizeMB := 0.5, maxWidthOrHeight := 1920, useWebWorker := true,
    fileType := "image/jpeg" }

def allowedTypes : List String := ["image/jpeg", "image/png"]

/-- The documented contract of the `browser-image-compression` library: a
successful compression yields a blob within `maxSizeMB`, within
`maxWidthOrHeight` in both dimensions, converted to `fileType`. -/
def CompressionContract (compress : ImageBlob → CompressionOptions → Except String ImageBlob) : Prop :=
  ∀ f o g, compress f o = .ok g →
    g.sizeMB ≤ o.maxSizeMB ∧ g.width ≤ o.maxWidthOrHeight ∧
    g.height ≤ o.maxWidthOrHeight ∧ g.type = o.fileType

/-- The component state `handleImageChange` touches. -/
structure ImageState where
  error : String
  isProcessing : Bool
  imageFile : Option ImageBlob
deriving DecidableEq, Repr

/-- `AddRecordModal.handleImageChange`: reject files that are not JPEG/PNG,
otherwise compress with `modalCompressionOptions` and store the compressed
blob as the selected image (`setImageFile(compressedFile)`).  `compress`
stands for the third-party `imageCompression` call; `file` is
`e.target.files[0]` (absent when no file was chosen). -/
def handleImageChange (compress : ImageBlob → CompressionOptions → Except String ImageBlob)
    (file : Option ImageBlob) (s : ImageState) : ImageState :=
  match file with
  | none => s
  | some f =>
    if !allowedTypes.contains f.type then
      { s with error := "檔案格式不符，僅接受 JPG 或 PNG 格式。" }
    else
      match compress f modalCompressionOptions with
      | .ok g => { s with error := "", isProcessing := false, imageFile := some g }
      | .error _ =>
        { s with error := "無法處理此圖片，請更換一張試試。", isProcessing := false }

/-- The form fields `AddRecordModal.handleSubmit` reads.  `recordDate` is the
date the `yyyy-MM-dd` input string parses to. -/
structure ModalForm where
  notes : String
  tags : String
  amount : Int
  foodItems : String
  reaction : Reaction
  measurementType : MeasurementType
  value : Int
  recordDate : Date
  imageFile : Option ImageBlob
deriving DecidableEq, Repr

/-- The component state a submission ends in: the database after the call,
the `error` message state, `isSubmitting`, and whether `onClose` ran. -/
structure SubmitState where
  db : List StoredDoc
  error : String
  isSubmitting : Bool
  closed : Bool
deriving DecidableEq, Repr

/-- The `recordData` object the snapshot branch of `handleSubmit` passes to
`addRecord`: no timestamp, no year, no month. -/
def modalSnapshotData (p : UserProfile) (u : User) (notes imageUrl : String)
    (tagsArray : List String) : RecordData :=
  { type := some .snapshot
    familyId := p.familyIDs.head?
    creatorId := some u.uid
    notes := some notes
    imageUrl := some imageUrl
    tags := some tagsArray }

/-- The `recordData` object the non-snapshot branch of `handleSubmit` builds
(the `{ notes }` seed plus the per-type `switch` additions). -/
def modalSwitchData (recordType : CreatableRecordType) (form : ModalForm) : RecordData :=
  let rd : RecordData := { notes := some form.notes }
  match recordType with
  | .feeding => { rd with amount := some form.amount }
  | .solidFood => { rd with foodItems := some form.foodItems, reaction := some form.reaction }
  | .measurement =>
    { rd with measurementType := some form.measurementType, value := some form.value,
              timestamp := some (Timestamp.fromDate form.recordDate) }
  | _ => rd

/-- The body of the `try` block of `handleSubmit` (next.config.mjs part,
lines 139-180): upload-then-add for snapshots, update-or-add for the other
record types.  `.error` is the message of the exception that aborted the
block; the snapshot branch's missing-image early return is modelled as the
error outcome it observably equals (error message set, modal left open,
database untouched).  `uploadImage` stands for the image storage module
(modelled from the spec: uploads a compressed image blob and returns a URL,
or throws). -/
def submitTryBody (recordType : CreatableRecordType) (u : User) (p : UserProfile)
    (form : ModalForm) (existingRecord : Option StoredDoc)
    (uploadImage : ImageBlob → String → Except String String)
    (db : List StoredDoc) (newId : String) (addDocOk updateOk : Bool) :
    Except String (List StoredDoc) :=
  if recordType = .snapshot then
    match form.imageFile with
    | none => .error "請選擇一張要上傳的圖片。"
    | some f =>
      match uploadImage f u.uid with
      | .error e => .error e
      | .ok imageUrl =>
        let tagsArray := parseTags form.tags
        match addRecord (modalSnapshotData p u form.notes imageUrl tagsArray)
            (some p) db newId addDocOk with
        | (db2, .ok _) => .ok db2
        | (_, .error e) => .error e
  else
    let recordData := modalSwitchData recordType form
    match existingRecord with
    | some ex =>
      match updateRecord ex.id recordData db updateOk with
      | (db2, .ok _) => .ok db2
      | (_, .error e) => .error e
    | none =>
      let recordData :=
        { recordData with
          type := some recordType.toRecordType
          familyId := p.familyIDs.head?
          creatorId := some u.uid }
      match addRecord recordData (some p) db newId addDocOk with
      | (db2, .ok _) => .ok db2
      | (_, .error e) => .error e

/-- `AddRecordModal.handleSubmit` (next.config.mjs part, lines 130-187): the
user-identity guard, then the `try`/`catch`/`finally`: on success `onClose()`
runs and `isSubmitting` is reset; on a throw the error message is stored, the
modal stays open and `isSubmitting` is reset. -/
def handleSubmit (recordType : CreatableRecordType) (user : Option User)
    (userProfile : Option UserProfile) (form : ModalForm)
    (existingRecord : Option StoredDoc)
    (uploadImage : ImageBlob → String → Except String String)
    (db : List StoredDoc) (newId : String) (addDocOk updateOk : Bool) :
    SubmitState :=
  match user, userProfile with
  | some u, some p =>
    if p.familyIDs.isEmpty then
      { db := db, error := "無法驗證使用者身份", isSubmitting := false, closed := false }
    else
      match submitTryBody recordType u p form existingRecord uploadImage db newId
          addDocOk updateOk with
      | .ok db2 => { db := db2, error := "", isSubmitting := false, closed := true }
      | .error e => { db := db, error := e, isSubmitting := false, closed := false }
  | _, _ =>
    { db := db, error := "無法驗證使用者身份", isSubmitting := false, closed := false }

/-- The record-type shortcuts rendered by `FloatingActionButton`
(FloatingActionButton.tsx lines 22-38), in render order. -/
def fabShortcuts : List CreatableRecordType :=
  [.snapshot, .sleep, .diaper, .feeding]

structure FabState where
  isOpen : Bool
deriving DecidableEq, Repr

/-- `handleSubButtonClick`: the `onAddRecord` callback argument together with
the state after `setIsOpen(false)`. -/
def handleSubButtonClick (type : CreatableRecordType) (s : FabState) :
    CreatableRecordType × FabState :=
  (type, { isOpen := false })


/-- The per-page document count of the claim: `options.perPage`, or 20 when it
is absent or 0. -/
def claimPerPage (options : GetSnapshotsOptions) : Nat :=
  match options.perPage with
  | none => 20
  | some 0 => 20
  | some (n + 1) => n + 1

/-- The query the C1 claim describes, written from the claim's words: filters
on `familyId` and `type = 'snapshot'`; additionally on `year` when
`options.filter.year` is a nonzero number, on `month` when nonzero, and on
`tags` array-containing the trimmed tag when the tag is present and not all
whitespace; ordered by `timestamp` descending; limited to the per-page count;
starting after `options.lastDoc` when given. -/
def claimSnapshotsConstraints (familyId : String) (options : GetSnapshotsOptions) :
    List QueryConstraint :=
  [.whereEq "familyId" (.str familyId), .whereEq "type" (.str "snapshot")]
  ++ (match options.filter.bind SnapshotFilter.year with
      | some y => if y ≠ 0 then [.whereEq "year" (.int y)] else []
      | none => [])
  ++ (match options.filter.bind SnapshotFilter.month with
      | some m => if m ≠ 0 then [.whereEq "month" (.int m)] else []
      | none => [])
  ++ (match options.filter.bind SnapshotFilter.tag with
      | some t => if jsTrim t ≠ "" then [.whereArrayContains "tags" (.str (jsTrim t))] else []
      | none => [])
  ++ [.orderByField "timestamp" .desc, .limitTo (claimPerPage options)]
  ++ (match options.lastDoc with
      | some ld => [.startAfterDoc ld]
      | none => [])

theorem jsSplit_ne_nil (s : List Char) : jsSplit s ≠ [] := by
  cases s with
  | nil => simp [jsSplit]
  | cons c cs =>
    rw [jsSplit]
    split
    · simp
    · split <;> simp

theorem jsSplit_head (s : List Char) :
    (jsSplit s).head? = some (s.takeWhile (fun c => !isTagSep c)) := by
  induction s using jsSplit.induct with
  | case1 => simp [jsSplit]
  | case2 c cs h ih =>
    rw [jsSplit]
    simp [h]
  | case3 c cs h t ts hsplit ih =>
    rw [jsSplit]
    simp only [h, if_neg, hsplit]
    rw [hsplit] at ih
    simp at ih
    simp [h, ih]
  | case4 c cs h hsplit =>
    exact absurd hsplit (jsSplit_ne_nil cs)

theorem jsSplit_tail_nonsep (c : Char) (cs : List Char) (h : ¬ isTagSep c = true) :
    (jsSplit (c :: cs)).tail = (jsSplit cs).tail := by
  rw [jsSplit]
  simp only [h, if_neg]
  match hs : jsSplit cs with
  | t :: ts => simp
  | [] => exact absurd hs (jsSplit_ne_nil cs)

theorem nonSepRuns_dropWhile_sep (s : List Char) :
    nonSepRuns (s.dropWhile isTagSep) = nonSepRuns s := by
  induction s with
  | nil => simp
  | cons c cs ih =>
    by_cases h : isTagSep c
    · rw [List.dropWhile_cons_of_pos h, ih, nonSepRuns]
      simp [h]
    · rw [List.dropWhile_cons_of_neg h]

theorem splitFilter_eq_runs_aux : ∀ n (s : List Char), s.length ≤ n →
    ((jsSplit s).filter (fun t => decide (t.length > 0)) = nonSepRuns s ∧
     ((jsSplit s).tail.filter (fun t => decide (t.length > 0)) =
        nonSepRuns (s.dropWhile (fun c => !isTagSep c)))) := by
  intro n
  induction n with
  | zero =>
    intro s hs
    have : s = [] := List.length_eq_zero.mp (Nat.le_zero.mp hs)
    subst this
    simp [jsSplit, nonSepRuns]
  | succ n ih =>
    intro s hs
    match s with
    | [] => simp [jsSplit, nonSepRuns]
    | c :: cs =>
      simp only [List.length_cons, Nat.succ_le_succ_iff] at hs
      by_cases h : isTagSep c
      · -- leading separator: split emits an empty token which the filter drops
        constructor
        · rw [jsSplit, if_pos h, List.filter_cons_of_neg (by simp)]
          have hlen : (cs.dropWhile isTagSep).length ≤ n :=
            le_trans ((List.dropWhile_sublist _).length_le) hs
          rw [(ih _ hlen).1, nonSepRuns_dropWhile_sep, nonSepRuns]
          simp [h]
        · rw [List.dropWhile_cons_of_neg (by simp [h])]
          rw [jsSplit, if_pos h, List.tail_cons]
          have hlen : (cs.dropWhile isTagSep).length ≤ n :=
            le_trans ((List.dropWhile_sublist _).length_le) hs
          rw [(ih _ hlen).1, nonSepRuns_dropWhile_sep]
          rw [nonSepRuns]
          simp [h]
      · -- leading non-separator: the head token is the maximal nonsep run
        have hhead := jsSplit_head cs
        constructor
        · match hsp : jsSplit cs with
          | [] => exact absurd hsp (jsSplit_ne_nil cs)
          | t :: ts =>
            rw [hsp] at hhead
            simp only [List.head?_cons, Option.some.injEq] at hhead
            rw [jsSplit, if_neg h, hsp]
            rw [show (match t :: ts with
                | t :: ts => (c :: t) :: ts
                | [] => [[c]]) = (c :: t) :: ts from rfl]
            rw [List.filter_cons_of_pos (by simp)]
            have htail : ts.filter (fun t => decide (t.length > 0)) =
                nonSepRuns (cs.dropWhile (fun x => !isTagSep x)) := by
              have h2 := (ih cs hs).2
              rw [hsp] at h2
              simpa using h2
            rw [htail, nonSepRuns]
            rw [if_neg h, hhead]
        · rw [jsSplit_tail_nonsep c cs h]
          rw [List.dropWhile_cons_of_pos (by simp [h])]
          exact (ih cs hs).2

theorem splitFilter_eq_runs (s : List Char) :
    (jsSplit s).filter (fun t => decide (t.length > 0)) = nonSepRuns s :=
  (splitFilter_eq_runs_aux s.length s le_rfl).1

theorem nonSepRuns_all_sep (s : List Char) (h : ∀ c ∈ s, isTagSep c = true) :
    nonSepRuns s = [] := by
  induction s with
  | nil => simp [nonSepRuns]
  | cons c cs ih =>
    rw [nonSepRuns]
    simp only [h c (List.mem_cons_self c cs), if_pos]
    exact ih (fun x hx => h x (List.mem_cons_of_mem c hx))

/-- C2: for a `snapshot` record whose effective timestamp is an explicit
`Timestamp`, `addRecord` stores `year = getFullYear()` and
`month = getMonth() + 1`; for every other record type it adds no `year` or
`month` field (they pass through unchanged from the input). -/
theorem addRecord_snapshot_year_month (recordData : RecordData) (p : UserProfile)
    (db : List StoredDoc) (newId : String)
    (hfam : truthyStr recordData.familyId = true)
    (hcre : truthyStr recordData.creatorId = true) :
    addRecord recordData (some p) db newId true =
      (db ++ [⟨newId, dataToSave recordData p⟩], .ok newId) ∧
    (∀ t, recordData.type = some .snapshot → recordData.timestamp = some t →
      (dataToSave recordData p).year = some t.toDate.getFullYear ∧
      (dataToSave recordData p).month = some ((t.toDate.getMonth : Int) + 1)) ∧
    (recordData.type ≠ some .snapshot →
      (dataToSave recordData p).year = recordData.year ∧
      (dataToSave recordData p).month = recordData.month) := by
  refine ⟨by simp [addRecord, hfam, hcre], ?_, ?_⟩
  · intro t hty hts
    simp [dataToSave, hty, hts]
  · intro hty
    simp [dataToSave, hty]

theorem addRecord_snapshot_year_month_witness :
    (dataToSave { familyId := some "fam1", creatorId := some "u1", type := some RecordType.snapshot, timestamp := some ⟨2024, 6, 15, 0⟩ } ⟨some "Mom", ["fam1"]⟩).year = some 2024 ∧
    (dataToSave { familyId := some "fam1", creatorId := some "u1", type := some RecordType.snapshot, timestamp := some ⟨2024, 6, 15, 0⟩ } ⟨some "Mom", ["fam1"]⟩).month = some 7 :=
  (addRecord_snapshot_year_month { familyId := some "fam1", creatorId := some "u1", type := some RecordType.snapshot, timestamp := some ⟨2024, 6, 15, 0⟩ } ⟨some "Mom", ["fam1"]⟩ [] "rec1" (by decide) (by decide)).2.1 ⟨2024, 6, 15, 0⟩ rfl rfl

/-- C4: every CRUD wrapper validates its required identifiers before any
database call: `addRecord` rejects a missing/empty `familyId` or `creatorId`,
then a missing user profile; `updateRecord` / `deleteRecord` reject an empty
`recordId`.  In each case the function returns the error with the database
unchanged, for every backend outcome. -/
theorem crud_validation :
    (∀ (recordData : RecordData) (userProfile : Option UserProfile)
        (db : List StoredDoc) (newId : String) (addDocOk : Bool),
      ¬(truthyStr recordData.familyId = true ∧ truthyStr recordData.creatorId = true) →
      addRecord recordData userProfile db newId addDocOk =
        (db, .error "Family ID and Creator ID are required.")) ∧
    (∀ (recordData : RecordData) (db : List StoredDoc) (newId : String) (addDocOk : Bool),
      truthyStr recordData.familyId = true → truthyStr recordData.creatorId = true →
      addRecord recordData none db newId addDocOk =
        (db, .error "User profile is not available.")) ∧
    (∀ (updatedData : RecordData) (db : List StoredDoc) (backendOk : Bool),
      updateRecord "" updatedData db backendOk =
        (db, .error "Record ID is required for updating.")) ∧
    (∀ (db : List StoredDoc) (backendOk : Bool),
      deleteRecord "" db backendOk =
        (db, .error "Record ID is required for deletion.")) := by
  refine ⟨?_, ?_, ?_, ?_⟩
  · intro rd up db newId ok h
    rw [Classical.not_and_iff_or_not_not] at h
    unfold addRecord
    rcases h with h | h <;> simp [h]
  · intro rd db newId ok h1 h2
    simp [addRecord, h1, h2]
  · intro u db ok
    simp [updateRecord]
  · intro db ok
    simp [deleteRecord]

theorem crud_validation_witness :
    addRecord { familyId := some "", creatorId := some "u1" } (some ⟨some "Mom", ["fam1"]⟩) [] "r1" true = ([], .error "Family ID and Creator ID are required.") ∧
    addRecord { familyId := some "fam1", creatorId := some "u1" } none [] "r1" true = ([], .error "User profile is not available.") ∧
    updateRecord "" { notes := some "x" } [] true = ([], .error "Record ID is required for updating.") ∧
    deleteRecord "" [] true = ([], .error "Record ID is required for deletion.") :=
  ⟨crud_validation.1 _ _ _ _ _ (by decide),
   crud_validation.2.1 _ _ _ _ (by decide) (by decide),
   crud_validation.2.2.1 _ _ _,
   crud_validation.2.2.2 _ _⟩

/-- C9: every document `addRecord` writes has `babyId = 'baby_01'` and
`creatorName = userProfile.displayName`, whatever `babyId` or `creatorName`
the caller supplied in `recordData`. -/
theorem addRecord_overwrites_babyId_creatorName (recordData : RecordData)
    (p : UserProfile) (db : List StoredDoc) (newId : String)
    (hfam : truthyStr recordData.familyId = true)
    (hcre : truthyStr recordData.creatorId = true) :
    addRecord recordData (some p) db newId true =
      (db ++ [⟨newId, dataToSave recordData p⟩], .ok newId) ∧
    (dataToSave recordData p).babyId = "baby_01" ∧
    (dataToSave recordData p).creatorName = p.displayName := by
  refine ⟨by simp [addRecord, hfam, hcre], ?_, ?_⟩ <;>
    · cases hts : recordData.timestamp <;>
        by_cases hty : recordData.type = some RecordType.snapshot <;>
        simp [dataToSave, hts, hty]

theorem addRecord_overwrites_witness :
    (dataToSave { familyId := some "fam1", creatorId := some "u1", babyId := some "someOtherBaby", creatorName := some (some "Impostor") } ⟨some "Mom", ["fam1"]⟩).babyId = "baby_01" ∧
    (dataToSave { familyId := some "fam1", creatorId := some "u1", babyId := some "someOtherBaby", creatorName := some (some "Impostor") } ⟨some "Mom", ["fam1"]⟩).creatorName = some "Mom" :=
  ⟨(addRecord_overwrites_babyId_creatorName { familyId := some "fam1", creatorId := some "u1", babyId := some "someOtherBaby", creatorName := some (some "Impostor") } ⟨some "Mom", ["fam1"]⟩ [] "r1" (by decide) (by decide)).2.1,
   (addRecord_overwrites_babyId_creatorName { familyId := some "fam1", creatorId := some "u1", babyId := some "someOtherBaby", creatorName := some (some "Impostor") } ⟨some "Mom", ["fam1"]⟩ [] "r1" (by decide) (by decide)).2.2⟩

/-- C6 (counterexample): the floating action button does NOT expose a shortcut
for every loggable record type — `solid-food` (and `measurement`) have no
sub-button. -/
theorem fab_missing_solid_food :
    CreatableRecordType.solidFood ∉ fabShortcuts ∧
    CreatableRecordType.measurement ∉ fabShortcuts := by
  decide

/-- C6 (amended): the floating action button exposes shortcuts for the
snapshot, sleep, diaper and feeding record types only, and clicking any
shortcut invokes `onAddRecord` with exactly that type and closes the menu. -/
theorem fab_shortcuts_behavior :
    fabShortcuts = [.snapshot, .sleep, .diaper, .feeding] ∧
    CreatableRecordType.snapshot ∈ fabShortcuts ∧
    CreatableRecordType.sleep ∈ fabShortcuts ∧
    CreatableRecordType.diaper ∈ fabShortcuts ∧
    CreatableRecordType.feeding ∈ fabShortcuts ∧
    (∀ (t : CreatableRecordType) (s : FabState),
      handleSubButtonClick t s = (t, { isOpen := false })) :=
  ⟨rfl, by decide, by decide, by decide, by decide, fun t s => rfl⟩

theorem handleSubmit_snapshot_ok (u : User) (p : UserProfile) (form : ModalForm)
    (ex : Option StoredDoc) (uploadImage : ImageBlob → String → Except String String)
    (db : List StoredDoc) (newId : String) (updateOk : Bool)
    (fid : String) (rest : List String) (f : ImageBlob) (url : String)
    (hfam : p.familyIDs = fid :: rest) (hfid : fid ≠ "") (huid : u.uid ≠ "")
    (himg : form.imageFile = some f) (hup : uploadImage f u.uid = .ok url) :
    handleSubmit .snapshot (some u) (some p) form ex uploadImage db newId true updateOk =
      { db := db ++ [⟨newId, dataToSave (modalSnapshotData p u form.notes url (parseTags form.tags)) p⟩],
        error := "", isSubmitting := false, closed := true } := by
  have hne : p.familyIDs.isEmpty = false := by simp [hfam]
  have hbody : submitTryBody .snapshot u p form ex uploadImage db newId true updateOk =
      .ok (db ++ [⟨newId, dataToSave (modalSnapshotData p u form.notes url (parseTags form.tags)) p⟩]) := by
    have haddr : addRecord (modalSnapshotData p u form.notes url (parseTags form.tags))
        (some p) db newId true =
        (db ++ [⟨newId, dataToSave (modalSnapshotData p u form.notes url (parseTags form.tags)) p⟩],
         .ok newId) := by
      simp [addRecord, modalSnapshotData, truthyStr, hfam, hfid, huid]
    rw [submitTryBody, if_pos rfl, himg]
    dsimp only
    rw [hup]
    dsimp only
    rw [haddr]
  rw [handleSubmit]
  simp only [hne, Bool.false_eq_true, if_false, hbody]

/-- C3: the snapshot tag input is split on every maximal run of ASCII commas,
fullwidth commas and whitespace; zero-length tokens are dropped; any
all-separator input therefore parses to an empty tag list; and a successful
snapshot submission stores exactly that parsed list as the record's `tags`
array. -/
theorem modal_tag_parsing :
    (∀ s, parseTags s = specTagTokens s) ∧
    (∀ s, (∀ c ∈ s.data, isTagSep c = true) → parseTags s = []) ∧
    (∀ (u : User) (p : UserProfile) (form : ModalForm) (ex : Option StoredDoc)
        (uploadImage : ImageBlob → String → Except String String)
        (db : List StoredDoc) (newId : String) (updateOk : Bool)
        (fid : String) (rest : List String) (f : ImageBlob) (url : String),
      p.familyIDs = fid :: rest → fid ≠ "" → u.uid ≠ "" →
      form.imageFile = some f → uploadImage f u.uid = .ok url →
      handleSubmit .snapshot (some u) (some p) form ex uploadImage db newId true updateOk =
        { db := db ++ [⟨newId, dataToSave (modalSnapshotData p u form.notes url (parseTags form.tags)) p⟩],
          error := "", isSubmitting := false, closed := true } ∧
      (dataToSave (modalSnapshotData p u form.notes url (parseTags form.tags)) p).tags =
        some (parseTags form.tags)) := by
  refine ⟨?_, ?_, ?_⟩
  · intro s
    unfold parseTags specTagTokens
    rw [splitFilter_eq_runs]
  · intro s h
    unfold parseTags
    rw [splitFilter_eq_runs, nonSepRuns_all_sep s.data h]
    rfl
  · intro u p form ex upload db newId updOk fid rest f url h1 h2 h3 h4 h5
    refine ⟨handleSubmit_snapshot_ok u p form ex upload db newId updOk fid rest f url h1 h2 h3 h4 h5, ?_⟩
    simp [dataToSave, modalSnapshotData]

theorem modal_tag_parsing_witness :
    parseTags ", ，  " = [] ∧
    (dataToSave (modalSnapshotData ⟨some "Mom", ["fam1"]⟩ ⟨"u1"⟩ "n" "http://img" (parseTags "a, b")) ⟨some "Mom", ["fam1"]⟩).tags = some (parseTags "a, b") :=
  ⟨modal_tag_parsing.2.1 ", ，  " (by decide),
   (modal_tag_parsing.2.2 ⟨"u1"⟩ ⟨some "Mom", ["fam1"]⟩ ⟨"n", "a, b", 0, "", .good, .weight, 0, ⟨2024, 0, 1⟩, some ⟨"image/jpeg", 1, 10, 10⟩⟩ none (fun _ _ => .ok "http://img") [] "r1" true "fam1" [] ⟨"image/jpeg", 1, 10, 10⟩ "http://img" rfl (by decide) (by decide) rfl rfl).2⟩

/-- C7: once the user-identity check passes (and, for snapshots, an image is
selected so an operation is actually invoked), the modal closes exactly when
the invoked upload/record operation completes without throwing; on a throw
the modal stays open, the error state holds the thrown message and
`isSubmitting` is reset to `false`. -/
theorem modal_close_iff_success (rt : CreatableRecordType) (u : User) (p : UserProfile)
    (form : ModalForm) (ex : Option StoredDoc)
    (uploadImage : ImageBlob → String → Except String String)
    (db : List StoredDoc) (newId : String) (addDocOk updateOk : Bool)
    (hfam : p.familyIDs.isEmpty = false)
    (hinv : rt ≠ .snapshot ∨ form.imageFile.isSome = true) :
    ((handleSubmit rt (some u) (some p) form ex uploadImage db newId addDocOk updateOk).closed = true ↔
      ∃ db2, submitTryBody rt u p form ex uploadImage db newId addDocOk updateOk = .ok db2) ∧
    (∀ db2, submitTryBody rt u p form ex uploadImage db newId addDocOk updateOk = .ok db2 →
      handleSubmit rt (some u) (some p) form ex uploadImage db newId addDocOk updateOk =
        { db := db2, error := "", isSubmitting := false, closed := true }) ∧
    (∀ e, submitTryBody rt u p form ex uploadImage db newId addDocOk updateOk = .error e →
      handleSubmit rt (some u) (some p) form ex uploadImage db newId addDocOk updateOk =
        { db := db, error := e, isSubmitting := false, closed := false }) := by
  rw [handleSubmit]
  simp only [hfam, Bool.false_eq_true, if_false]
  cases h : submitTryBody rt u p form ex uploadImage db newId addDocOk updateOk <;>
    simp [h]

theorem modal_close_iff_success_witness :
    (handleSubmit .feeding (some ⟨"u1"⟩) (some ⟨some "Mom", ["fam1"]⟩) ⟨"n", "", 120, "", .good, .weight, 0, ⟨2024, 0, 1⟩, none⟩ none (fun _ _ => .ok "url") [] "r1" true true).closed = true :=
  (modal_close_iff_success .feeding ⟨"u1"⟩ ⟨some "Mom", ["fam1"]⟩ ⟨"n", "", 120, "", .good, .weight, 0, ⟨2024, 0, 1⟩, none⟩ none (fun _ _ => .ok "url") [] "r1" true true rfl (Or.inl (by decide))).1.mpr ⟨_, rfl⟩

/-- C8: a chosen file that is neither JPEG nor PNG sets the format error and
is never compressed or stored; an accepted file is compressed with the
0.5 MB / 1920 px / JPEG options and the compressed blob becomes the selected
image; on submission that blob is uploaded and the returned URL is stored as
the new record's `imageUrl`; submitting a snapshot with no image sets an
error and adds no record. -/
theorem modal_image_pipeline (compress : ImageBlob → CompressionOptions → Except String ImageBlob)
    (hC : CompressionContract compress) (f g : ImageBlob) (st : ImageState)
    (hok : compress f modalCompressionOptions = .ok g) :
    (allowedTypes.contains f.type = false →
      handleImageChange compress (some f) st =
        { st with error := "檔案格式不符，僅接受 JPG 或 PNG 格式。" }) ∧
    (allowedTypes.contains f.type = true →
      handleImageChange compress (some f) st =
        { st with error := "", isProcessing := false, imageFile := some g } ∧
      g.sizeMB ≤ 0.5 ∧ g.width ≤ 1920 ∧ g.height ≤ 1920 ∧ g.type = "image/jpeg") ∧
    (∀ (u : User) (p : UserProfile) (form : ModalForm) (ex : Option StoredDoc)
        (uploadImage : ImageBlob → String → Except String String)
        (db : List StoredDoc) (newId : String) (updateOk : Bool)
        (fid : String) (rest : List String) (url : String),
      p.familyIDs = fid :: rest → fid ≠ "" → u.uid ≠ "" →
      form.imageFile = some g → uploadImage g u.uid = .ok url →
      handleSubmit .snapshot (some u) (some p) form ex uploadImage db newId true updateOk =
        { db := db ++ [⟨newId, dataToSave (modalSnapshotData p u form.notes url (parseTags form.tags)) p⟩],
          error := "", isSubmitting := false, closed := true } ∧
      (dataToSave (modalSnapshotData p u form.notes url (parseTags form.tags)) p).imageUrl =
        some url) ∧
    (∀ (u : User) (p : UserProfile) (form : ModalForm) (ex : Option StoredDoc)
        (uploadImage : ImageBlob → String → Except String String)
        (db : List StoredDoc) (newId : String) (addDocOk updateOk : Bool),
      p.familyIDs.isEmpty = false → form.imageFile = none →
      handleSubmit .snapshot (some u) (some p) form ex uploadImage db newId addDocOk updateOk =
        { db := db, error := "請選擇一張要上傳的圖片。", isSubmitting := false,
          closed := false }) := by
  refine ⟨?_, ?_, ?_, ?_⟩
  · intro hbad
    simp only [handleImageChange]
    rw [if_pos (by rw [hbad]; rfl)]
  · intro hgood
    have hmem : f.type ∈ allowedTypes := by simpa using hgood
    have hc := hC f modalCompressionOptions g hok
    refine ⟨by simp [handleImageChange, hmem, hok], hc.1, hc.2.1, hc.2.2.1, hc.2.2.2⟩
  · intro u p form ex upload db newId updOk fid rest url h1 h2 h3 h4 h5
    refine ⟨handleSubmit_snapshot_ok u p form ex upload db newId updOk fid rest g url h1 h2 h3 h4 h5, ?_⟩
    simp [dataToSave, modalSnapshotData]
  · intro u p form ex upload db newId addOk updOk hne himg
    rw [handleSubmit]
    simp only [hne, Bool.false_eq_true, if_false]
    rw [submitTryBody, if_pos rfl, himg]

theorem modal_image_pipeline_witness :
    handleImageChange (fun _ o => .ok ⟨o.fileType, o.maxSizeMB, o.maxWidthOrHeight, o.maxWidthOrHeight⟩) (some ⟨"image/png", 3, 4000, 3000⟩) ⟨"", true, none⟩ =
      { error := "", isProcessing := false, imageFile := some ⟨"image/jpeg", 0.5, 1920, 1920⟩ } ∧
    (⟨"image/jpeg", 0.5, 1920, 1920⟩ : ImageBlob).sizeMB ≤ 0.5 ∧
    handleImageChange (fun _ o => .ok ⟨o.fileType, o.maxSizeMB, o.maxWidthOrHeight, o.maxWidthOrHeight⟩) (some ⟨"text/html", 3, 4000, 3000⟩) ⟨"", true, none⟩ =
      { error := "檔案格式不符，僅接受 JPG 或 PNG 格式。", isProcessing := true, imageFile := none } := by
  have hC : CompressionContract (fun _ o => .ok ⟨o.fileType, o.maxSizeMB, o.maxWidthOrHeight, o.maxWidthOrHeight⟩) := by
    intro f o g h
    cases h
    exact ⟨le_refl _, le_refl _, le_refl _, rfl⟩
  have hgood := (modal_image_pipeline (fun _ o => .ok ⟨o.fileType, o.maxSizeMB, o.maxWidthOrHeight, o.maxWidthOrHeight⟩) hC ⟨"image/png", 3, 4000, 3000⟩ ⟨"image/jpeg", 0.5, 1920, 1920⟩ ⟨"", true, none⟩ rfl).2.1 (by decide)
  have hbad := (modal_image_pipeline (fun _ o => .ok ⟨o.fileType, o.maxSizeMB, o.maxWidthOrHeight, o.maxWidthOrHeight⟩) hC ⟨"text/html", 3, 4000, 3000⟩ ⟨"image/jpeg", 0.5, 1920, 1920⟩ ⟨"", true, none⟩ rfl).1 (by decide)
  exact ⟨hgood.1, hgood.2.1, hbad⟩

theorem timestamp_le_total (a b : Timestamp) :
    Timestamp.le a b = true ∨ Timestamp.le b a = true := by
  simp only [Timestamp.le, decide_eq_true_eq]
  omega

theorem timestamp_le_trans (a b c : Timestamp)
    (h1 : Timestamp.le a b = true) (h2 : Timestamp.le b c = true) :
    Timestamp.le a c = true := by
  simp only [Timestamp.le, decide_eq_true_eq] at h1 h2 ⊢
  omega

theorem tsValue_le_total (a b : TimestampValue) :
    TimestampValue.le a b = true ∨ TimestampValue.le b a = true := by
  cases a <;> cases b <;> simp [TimestampValue.le]
  exact timestamp_le_total _ _

theorem tsValue_le_trans (a b c : TimestampValue)
    (h1 : TimestampValue.le a b = true) (h2 : TimestampValue.le b c = true) :
    TimestampValue.le a c = true := by
  cases a <;> cases b <;> cases c <;> simp_all [TimestampValue.le]
  exact timestamp_le_trans _ _ _ h1 h2

theorem fieldValue_le_total (a b : FieldValue) :
    FieldValue.le a b = true ∨ FieldValue.le b a = true := by
  cases a <;> cases b <;>
    first
      | exact Or.inl rfl
      | exact Or.inr rfl
      | (simp only [FieldValue.le, decide_eq_true_eq]; exact le_total _ _)
      | (simp only [FieldValue.le, decide_eq_true_eq]; omega)
      | exact tsValue_le_total _ _

theorem fieldValue_le_trans (a b c : FieldValue)
    (h1 : FieldValue.le a b = true) (h2 : FieldValue.le b c = true) :
    FieldValue.le a c = true := by
  cases a <;> cases b <;> cases c <;>
    first
      | rfl
      | exact Bool.noConfusion h1
      | exact Bool.noConfusion h2
      | (simp only [FieldValue.le, decide_eq_true_eq] at h1 h2 ⊢; exact le_trans h1 h2)
      | (simp only [FieldValue.le, decide_eq_true_eq] at h1 h2 ⊢; omega)
      | exact tsValue_le_trans _ _ _ h1 h2

theorem optFieldLe_total (a b : Option FieldValue) :
    optFieldLe a b = true ∨ optFieldLe b a = true := by
  cases a <;> cases b <;> simp [optFieldLe]
  exact fieldValue_le_total _ _

theorem optFieldLe_trans (a b c : Option FieldValue)
    (h1 : optFieldLe a b = true) (h2 : optFieldLe b c = true) :
    optFieldLe a c = true := by
  cases a <;> cases b <;> cases c <;> simp_all [optFieldLe]
  exact fieldValue_le_trans _ _ _ h1 h2

theorem docLe_total (f : String) (dir : SortDirection) (a b : StoredDoc) :
    docLe f dir a b = true ∨ docLe f dir b a = true := by
  cases dir <;> simp only [docLe]
  · exact optFieldLe_total _ _
  · exact (optFieldLe_total _ _).symm

theorem docLe_trans (f : String) (dir : SortDirection) (a b c : StoredDoc)
    (h1 : docLe f dir a b = true) (h2 : docLe f dir b c = true) :
    docLe f dir a c = true := by
  cases dir <;> simp only [docLe] at h1 h2 ⊢
  · exact optFieldLe_trans _ _ _ h1 h2
  · exact optFieldLe_trans _ _ _ h2 h1

theorem measurement_filter_characterization (familyId babyId : String) (r : SavedRecord) :
    (getMeasurementRecordsConstraints familyId babyId).all (constraintMatches r) =
      decide (r.familyId = familyId ∧ r.babyId = babyId ∧ r.type = some RecordType.measurement) := by
  simp only [getMeasurementRecordsConstraints, List.all_cons, List.all_nil,
    constraintMatches, SavedRecord.field]
  simp only [String.reduceEq, if_true, if_false, reduceIte, Bool.and_true]
  cases ht : r.type with
  | none => simp
  | some t => cases t <;> simp [RecordType.toStr]

theorem docLe_timestamp (dir : SortDirection) (a b : StoredDoc) :
    docLe "timestamp" dir a b =
      match dir with
      | .asc => TimestampValue.le a.data.timestamp b.data.timestamp
      | .desc => TimestampValue.le b.data.timestamp a.data.timestamp := by
  cases dir <;> simp [docLe, optFieldLe, SavedRecord.field, FieldValue.le]

/-- C5: `getMeasurementRecords(familyId, babyId)` returns exactly the records
whose `familyId`, `babyId` and `type = 'measurement'` fields match, paired
with their document ids, sorted ascending by `timestamp`. -/
theorem getMeasurementRecords_spec (familyId babyId : String) (db : List StoredDoc) :
    (getMeasurementRecords familyId babyId db).Perm
      ((db.filter (fun d => decide (d.data.familyId = familyId ∧ d.data.babyId = babyId ∧ d.data.type = some RecordType.measurement))).map (fun d => (d.id, d.data))) ∧
    List.Sorted (fun x y : String × SavedRecord =>
      TimestampValue.le x.2.timestamp y.2.timestamp = true)
      (getMeasurementRecords familyId babyId db) := by
  have hfilter : db.filter (fun d => (getMeasurementRecordsConstraints familyId babyId).all (constraintMatches d.data)) =
      db.filter (fun d => decide (d.data.familyId = familyId ∧ d.data.babyId = babyId ∧ d.data.type = some RecordType.measurement)) :=
    List.filter_congr (fun d _ => measurement_filter_characterization familyId babyId d.data)
  have heval : evalQuery db (getMeasurementRecordsConstraints familyId babyId) =
      (db.filter (fun d => decide (d.data.familyId = familyId ∧ d.data.babyId = babyId ∧ d.data.type = some RecordType.measurement))).insertionSort
        (fun a b => docLe "timestamp" SortDirection.asc a b = true) := by
    rw [evalQuery]
    rw [show findOrderBy (getMeasurementRecordsConstraints familyId babyId) =
      some ("timestamp", SortDirection.asc) from rfl]
    rw [show findStartAfter (getMeasurementRecordsConstraints familyId babyId) =
      none from rfl]
    rw [show findLimit (getMeasurementRecordsConstraints familyId babyId) =
      none from rfl]
    rw [hfilter]
  constructor
  · rw [getMeasurementRecords, heval]
    exact (List.perm_insertionSort _ _).map _
  · rw [getMeasurementRecords, heval]
    have hsorted : List.Sorted (fun a b : StoredDoc => docLe "timestamp" SortDirection.asc a b = true)
        ((db.filter (fun d => decide (d.data.familyId = familyId ∧ d.data.babyId = babyId ∧ d.data.type = some RecordType.measurement))).insertionSort
          (fun a b => docLe "timestamp" SortDirection.asc a b = true)) := by
      haveI : IsTotal StoredDoc (fun a b => docLe "timestamp" SortDirection.asc a b = true) :=
        ⟨fun a b => docLe_total _ _ a b⟩
      haveI : IsTrans StoredDoc (fun a b => docLe "timestamp" SortDirection.asc a b = true) :=
        ⟨fun a b c => docLe_trans _ _ a b c⟩
      exact List.sorted_insertionSort _ _
    refine List.Pairwise.map _ ?_ hsorted
    intro a b hab
    rw [docLe_timestamp] at hab
    exact hab

theorem findLimit_append (xs ys : List QueryConstraint) :
    findLimit (xs ++ ys) =
      match findLimit xs with
      | some n => some n
      | none => findLimit ys := by
  induction xs with
  | nil => rfl
  | cons x xs ih => cases x <;> simp [findLimit, ih]

theorem evalQuery_length_le (db : List StoredDoc) (cs : List QueryConstraint)
    (n : Nat) (h : findLimit cs = some n) : (evalQuery db cs).length ≤ n := by
  rw [evalQuery]
  simp only [h]
  split <;> split <;> exact List.length_take_le _ _

theorem tag_condition_iff (t : String) :
    (t ≠ "" ∧ jsTrim t ≠ "") ↔ (jsTrim t ≠ "") :=
  ⟨fun h => h.2, fun h => ⟨fun he => h (by rw [he]; rfl), h⟩⟩

theorem getSnapshotsConstraints_eq_claim (familyId : String) (options : GetSnapshotsOptions) :
    getSnapshotsConstraints familyId options = claimSnapshotsConstraints familyId options := by
  rcases options with ⟨pp, ld, flt⟩
  rcases flt with _ | ⟨y, m, tg⟩
  · rcases pp with _ | (_ | n) <;> rcases ld with _ | ldv <;>
      simp [getSnapshotsConstraints, claimSnapshotsConstraints, claimPerPage, Option.bind]
  · rcases y with _ | yv <;> rcases m with _ | mv <;> rcases tg with _ | tv <;>
      rcases pp with _ | (_ | n) <;> rcases ld with _ | ldv <;>
      (simp [getSnapshotsConstraints, claimSnapshotsConstraints, claimPerPage,
         tag_condition_iff, List.append_assoc, Option.bind];
       try (split_ifs <;> simp [List.append_assoc]))

theorem findOrderBy_append (xs ys : List QueryConstraint) :
    findOrderBy (xs ++ ys) =
      match findOrderBy xs with
      | some p => some p
      | none => findOrderBy ys := by
  induction xs with
  | nil => rfl
  | cons x xs ih => cases x <;> simp [findOrderBy, ih]

theorem claim_findLimit (familyId : String) (options : GetSnapshotsOptions) :
    findLimit (claimSnapshotsConstraints familyId options) = some (claimPerPage options) := by
  rcases hy : options.filter.bind SnapshotFilter.year with _ | yv <;>
    rcases hm : options.filter.bind SnapshotFilter.month with _ | mv <;>
    rcases ht : options.filter.bind SnapshotFilter.tag with _ | tv <;>
    rcases hl : options.lastDoc with _ | ldv <;>
    (simp [claimSnapshotsConstraints, hy, hm, ht, hl, findLimit_append, findLimit];
     try (split_ifs <;> simp [findLimit]))

theorem claim_findOrderBy (familyId : String) (options : GetSnapshotsOptions) :
    findOrderBy (claimSnapshotsConstraints familyId options) =
      some ("timestamp", SortDirection.desc) := by
  rcases hy : options.filter.bind SnapshotFilter.year with _ | yv <;>
    rcases hm : options.filter.bind SnapshotFilter.month with _ | mv <;>
    rcases ht : options.filter.bind SnapshotFilter.tag with _ | tv <;>
    rcases hl : options.lastDoc with _ | ldv <;>
    (simp [claimSnapshotsConstraints, hy, hm, ht, hl, findOrderBy_append, findOrderBy];
     try (split_ifs <;> simp [findOrderBy]))

theorem evalQuery_sorted (db : List StoredDoc) (cs : List QueryConstraint)
    (f : String) (dir : SortDirection) (h : findOrderBy cs = some (f, dir)) :
    List.Sorted (fun a b => docLe f dir a b = true) (evalQuery db cs) := by
  rw [evalQuery]
  simp only [h]
  haveI : IsTotal StoredDoc (fun a b => docLe f dir a b = true) :=
    ⟨fun a b => docLe_total _ _ a b⟩
  haveI : IsTrans StoredDoc (fun a b => docLe f dir a b = true) :=
    ⟨fun a b c => docLe_trans _ _ a b c⟩
  have hsorted : List.Sorted (fun a b => docLe f dir a b = true)
      ((db.filter (fun d => cs.all (constraintMatches d.data))).insertionSort
        (fun a b => docLe f dir a b = true)) :=
    List.sorted_insertionSort _ _
  refine List.Pairwise.sublist ?_ hsorted
  split <;> split <;>
    first
      | exact List.Sublist.refl _
      | exact List.take_sublist _ _
      | exact (List.drop_sublist _ _).trans (List.dropWhile_sublist _)
      | exact (List.take_sublist _ _).trans
          ((List.drop_sublist _ _).trans (List.dropWhile_sublist _))

/-- C1: `getSnapshots(familyId, options)` sends exactly the query the claim
describes (base `familyId` / `type = 'snapshot'` filters, the truthiness-
guarded `year` / `month` / trimmed-`tag` filters, descending `timestamp`
order, `perPage` limit defaulting to 20, optional `startAfter`), pairs each
fetched document with its id, returns the last fetched document as
`lastVisible`, fetches at most the per-page count of documents, and the
fetched page is sorted by `timestamp` descending. -/
theorem getSnapshots_spec (familyId : String) (options : GetSnapshotsOptions)
    (db : List StoredDoc) :
    getSnapshotsConstraints familyId options = claimSnapshotsConstraints familyId options ∧
    (getSnapshots familyId options db).1 =
      (evalQuery db (getSnapshotsConstraints familyId options)).map (fun d => (d.id, d.data)) ∧
    (getSnapshots familyId options db).2 =
      (evalQuery db (getSnapshotsConstraints familyId options)).getLast? ∧
    (getSnapshots familyId options db).1.length ≤ claimPerPage options ∧
    List.Sorted (fun x y : String × SavedRecord =>
      TimestampValue.le y.2.timestamp x.2.timestamp = true)
      (getSnapshots familyId options db).1 := by
  have heqc := getSnapshotsConstraints_eq_claim familyId options
  refine ⟨heqc, rfl, rfl, ?_, ?_⟩
  · have hfl : findLimit (getSnapshotsConstraints familyId options) =
        some (claimPerPage options) := by
      rw [heqc]
      exact claim_findLimit familyId options
    have hlen := evalQuery_length_le db (getSnapshotsConstraints familyId options) _ hfl
    simpa [getSnapshots] using hlen
  · have hob : findOrderBy (getSnapshotsConstraints familyId options) =
        some ("timestamp", SortDirection.desc) := by
      rw [heqc]
      exact claim_findOrderBy familyId options
    have hsorted := evalQuery_sorted db (getSnapshotsConstraints familyId options)
      "timestamp" SortDirection.desc hob
    refine List.Pairwise.map _ ?_ hsorted
    intro a b hab
    rw [docLe_timestamp] at hab
    exact hab

theorem mem_evalQuery (db : List StoredDoc) (cs : List QueryConstraint)
    (d : StoredDoc) (hd : d ∈ evalQuery db cs) :
    ∀ c ∈ cs, constraintMatches d.data c = true := by
  have hfilter : d ∈ db.filter (fun x => cs.all (constraintMatches x.data)) := by
    rw [evalQuery] at hd
    rcases hL : findLimit cs with _ | n <;> simp only [hL] at hd <;>
      rcases hS : findStartAfter cs with _ | lid <;> simp only [hS] at hd <;>
      rcases hO : findOrderBy cs with _ | ⟨f, dir⟩ <;> simp only [hO] at hd
    · exact hd
    · exact (List.mem_insertionSort _).mp hd
    · exact ((List.dropWhile_sublist _).mem (List.mem_of_mem_drop hd))
    · exact (List.mem_insertionSort _).mp
        ((List.dropWhile_sublist _).mem (List.mem_of_mem_drop hd))
    · exact List.mem_of_mem_take hd
    · exact (List.mem_insertionSort _).mp (List.mem_of_mem_take hd)
    · exact (List.dropWhile_sublist _).mem
        (List.mem_of_mem_drop (List.mem_of_mem_take hd))
    · exact (List.mem_insertionSort _).mp
        ((List.dropWhile_sublist _).mem (List.mem_of_mem_drop (List.mem_of_mem_take hd)))
  exact List.all_eq_true.mp ((List.mem_filter.mp hfilter).2)

/-- C10: the record modal creates snapshots with no timestamp (and no
`year`/`month`), so `addRecord` stores the server-timestamp sentinel — which
is not a `Timestamp` instance — writes no `year` or `month` field, and such a
document is never returned by a `getSnapshots` call that supplies a nonzero
`year` or `month` filter. -/
theorem modal_snapshot_not_in_filtered_queries (p q : UserProfile) (u : User)
    (notes url : String) (tagsArray : List String) :
    (modalSnapshotData p u notes url tagsArray).timestamp = none ∧
    (modalSnapshotData p u notes url tagsArray).year = none ∧
    (modalSnapshotData p u notes url tagsArray).month = none ∧
    (dataToSave (modalSnapshotData p u notes url tagsArray) q).timestamp =
      TimestampValue.serverTimestamp ∧
    (∀ t : Timestamp, TimestampValue.serverTimestamp ≠ TimestampValue.ts t) ∧
    (dataToSave (modalSnapshotData p u notes url tagsArray) q).year = none ∧
    (dataToSave (modalSnapshotData p u notes url tagsArray) q).month = none ∧
    (∀ (familyId docId : String) (options : GetSnapshotsOptions)
        (db : List StoredDoc) (flt : SnapshotFilter),
      options.filter = some flt →
      truthyNum flt.year = true ∨ truthyNum flt.month = true →
      (docId, dataToSave (modalSnapshotData p u notes url tagsArray) q) ∉
        (getSnapshots familyId options db).1) := by
  have hyear : (dataToSave (modalSnapshotData p u notes url tagsArray) q).year = none := by
    simp [dataToSave, modalSnapshotData]
  have hmonth : (dataToSave (modalSnapshotData p u notes url tagsArray) q).month = none := by
    simp [dataToSave, modalSnapshotData]
  refine ⟨rfl, rfl, rfl, by simp [dataToSave, modalSnapshotData],
    fun t h => TimestampValue.noConfusion h, hyear, hmonth, ?_⟩
  intro familyId docId options db flt hflt hor hmem
  rw [getSnapshots] at hmem
  simp only [List.mem_map] at hmem
  obtain ⟨doc, hdoc, heq⟩ := hmem
  have hdata : doc.data = dataToSave (modalSnapshotData p u notes url tagsArray) q :=
    congrArg Prod.snd heq
  rcases hor with hy | hm
  · rcases hyv : flt.year with _ | y
    · rw [hyv] at hy
      exact Bool.noConfusion hy
    · have hy0 : ¬ y = 0 := by
        rw [hyv] at hy
        simpa [truthyNum] using hy
      have hcin : QueryConstraint.whereEq "year" (FieldValue.int y) ∈
          getSnapshotsConstraints familyId options := by
        rw [getSnapshotsConstraints_eq_claim]
        simp [claimSnapshotsConstraints, Option.bind, hflt, hyv, hy0]
      have hmatch := mem_evalQuery db _ doc hdoc _ hcin
      rw [hdata] at hmatch
      simp [constraintMatches, SavedRecord.field, hyear] at hmatch
  · rcases hmv : flt.month with _ | m
    · rw [hmv] at hm
      exact Bool.noConfusion hm
    · have hm0 : ¬ m = 0 := by
        rw [hmv] at hm
        simpa [truthyNum] using hm
      have hcin : QueryConstraint.whereEq "month" (FieldValue.int m) ∈
          getSnapshotsConstraints familyId options := by
        rw [getSnapshotsConstraints_eq_claim]
        simp [claimSnapshotsConstraints, Option.bind, hflt, hmv, hm0]
      have hmatch := mem_evalQuery db _ doc hdoc _ hcin
      rw [hdata] at hmatch
      simp [constraintMatches, SavedRecord.field, hmonth] at hmatch

theorem modal_snapshot_not_in_filtered_queries_witness :
    ("r1", dataToSave (modalSnapshotData ⟨some "Mom", ["fam"]⟩ ⟨"u1"⟩ "n" "http://x" []) ⟨some "Mom", ["fam"]⟩) ∉
      (getSnapshots "fam" ⟨none, none, some ⟨some 2024, none, none⟩⟩
        [⟨"r1", dataToSave (modalSnapshotData ⟨some "Mom", ["fam"]⟩ ⟨"u1"⟩ "n" "http://x" []) ⟨some "Mom", ["fam"]⟩⟩]).1 :=
  (modal_snapshot_not_in_filtered_queries ⟨some "Mom", ["fam"]⟩ ⟨some "Mom", ["fam"]⟩ ⟨"u1"⟩ "n" "http://x" []).2.2.2.2.2.2.2
    "fam" "r1" ⟨none, none, some ⟨some 2024, none, none⟩⟩ _ ⟨some 2024, none, none⟩ rfl (Or.inl (by decide))
